import Mathlib

/-
Verification of the SrtFetcher batch-fetching script.

The program is a linear pipeline: read identifiers from a CSV file,
then for each identifier send one HTTP POST request, classify the
response, log it, and pause before the next item.  We embed the
relevant functions shallowly: the network is modelled as the outcome
of each attempt (a response with a status code and body, or one of the
exception kinds that the `requests` library can raise), and the loop
is modelled as a trace of externally visible events (network attempts
and sleeps).
-/

namespace SrtFetcher

/-- A JSON value as it appears in the request payload: the script only
ever puts strings (and, per the spec, possibly booleans) in it. -/
inductive JsonVal where
  | str : String → JsonVal
  | bool : Bool → JsonVal
deriving DecidableEq, Repr

/-- The fixed target URL (configuration constant at the top of the script). -/
def API_URL : String := "https://lic.deepsrt.cc/webhook/get-srt-from-provider"

/-- The request payload built by fetch_srt_data.  The script writes the
value of the fetch_only field as the string "false", not as a boolean. -/
def payload (youtube_id : String) : List (String × JsonVal) :=
  [("youtube_id", JsonVal.str youtube_id),
   ("fetch_only", JsonVal.str "false")]

/-- The fixed request headers built by fetch_srt_data. -/
def headers : List (String × String) :=
  [("Content-Type", "application/json"),
   ("User-Agent", "SRTFetcherPythonScript/1.0")]

/-- A request as assembled by fetch_srt_data before the POST call. -/
structure Request where
  url : String
  hdrs : List (String × String)
  body : List (String × JsonVal)
deriving DecidableEq, Repr

/-- The request sent for a given identifier: fixed URL, fixed headers,
payload derived from the identifier. -/
def buildRequest (youtube_id : String) : Request :=
  { url := API_URL, hdrs := headers, body := payload youtube_id }

/-- The outcome of the single network attempt made by requests.post:
either an HTTP response arrives, or the library raises one of its
exception kinds. -/
inductive HttpAttempt where
  | resp (status : Nat) (body : String)
  | timeout
  | connError
  | otherReqError
deriving DecidableEq, Repr

/-- The exception kinds of the requests library that can escape the
POST call (Timeout and ConnectionError are the two specific kinds the
script names; every other transport fault is a RequestException). -/
inductive ReqException where
  | timeout
  | connectionError
  | otherRequestException
deriving DecidableEq, Repr

/-- requests.post itself: returns the response, or raises. -/
def post (a : HttpAttempt) : Except ReqException (Nat × String) :=
  match a with
  | HttpAttempt.resp s b => Except.ok (s, b)
  | HttpAttempt.timeout => Except.error ReqException.timeout
  | HttpAttempt.connError => Except.error ReqException.connectionError
  | HttpAttempt.otherReqError => Except.error ReqException.otherRequestException

/-- Python string slicing body[:n]: the first n characters (code
points) of the string. -/
def pyTake (body : String) (n : Nat) : String :=
  String.mk (body.data.take n)

/-- The console log snippet of the response body: the first 150
characters plus an ellipsis marker when the body is longer than 150
characters, the body itself otherwise. -/
def response_snippet (body : String) : String :=
  if body.length > 150 then pyTake body 150 ++ "..." else body

/-- fetch_srt_data, as an exception-transparent embedding of its
try/except block: the POST call is made once; a 2xx response returns
the raw body, any other status returns None; each of the three except
clauses (Timeout, ConnectionError, RequestException) falls through to
the final return None.  An uncaught exception would surface as
Except.error. -/
def fetch_srt_data (a : HttpAttempt) : Except ReqException (Option String) :=
  match post a with
  | Except.ok (s, b) =>
      if 200 ≤ s ∧ s < 300 then Except.ok (some b) else Except.ok none
  | Except.error e =>
      match e with
      | ReqException.timeout => Except.ok none
      | ReqException.connectionError => Except.ok none
      | ReqException.otherRequestException => Except.ok none

/-- Externally visible events of the main loop: one network attempt
per fetch invocation, and the inter-item sleeps. -/
inductive Event where
  | fetchCall (id : String)
  | sleep (seconds : Nat)
deriving DecidableEq, Repr

/-- The sleep the loop performs after the item at position idx
(0-based) of n: only when idx is not the last position and the delay
setting is positive. -/
def sleepEvents (n delay idx : Nat) : List Event :=
  if idx < n - 1 ∧ 0 < delay then [Event.sleep delay] else []

/-- The main loop from position idx on, over the remaining
(identifier, attempt-outcome) pairs.  Each iteration calls
fetch_srt_data (one network attempt); if that raised an uncaught
exception the whole loop would abort with it; otherwise the loop
continues to the next identifier regardless of the fetch outcome. -/
def runBatchAux (n delay : Nat) : Nat → List (String × HttpAttempt) →
    Except ReqException (List Event)
  | _, [] => Except.ok []
  | idx, (id, a) :: rest =>
      match fetch_srt_data a with
      | Except.error e => Except.error e
      | Except.ok _ =>
          match runBatchAux n delay (idx + 1) rest with
          | Except.error e => Except.error e
          | Except.ok evs =>
              Except.ok (Event.fetchCall id :: (sleepEvents n delay idx ++ evs))

/-- The whole main loop over a batch: n is the total count, iteration
starts at index 0. -/
def runBatch (items : List (String × HttpAttempt)) (delay : Nat) :
    Except ReqException (List Event) :=
  runBatchAux items.length delay 0 items

/-- The pure value a fetch invocation produces (body on 2xx, nothing
otherwise); used to state that fetch_srt_data never lets an exception
escape. -/
def fetchValue (a : HttpAttempt) : Option String :=
  match a with
  | HttpAttempt.resp s b => if 200 ≤ s ∧ s < 300 then some b else none
  | _ => none

/-- The event trace the loop produces when no exception escapes: it
depends only on the identifiers, not on the per-item outcomes. -/
def traceAux (n delay : Nat) : Nat → List String → List Event
  | _, [] => []
  | idx, id :: rest =>
      Event.fetchCall id :: (sleepEvents n delay idx ++ traceAux n delay (idx + 1) rest)

/-- The event trace of a whole batch run (runBatch never raises, so
the error branch is unreachable). -/
def batchEvents (items : List (String × HttpAttempt)) (delay : Nat) : List Event :=
  match runBatch items delay with
  | Except.ok evs => evs
  | Except.error _ => []

/-- Test for a network-attempt event. -/
def isFetchEvent (e : Event) : Bool :=
  match e with
  | Event.fetchCall _ => true
  | Event.sleep _ => false

/-- The identifiers fetched in a trace, in order. -/
def fetchedIds (evs : List Event) : List String :=
  evs.filterMap (fun e =>
    match e with
    | Event.fetchCall id => some id
    | Event.sleep _ => none)

/-- The number of sleeps in a trace. -/
def sleepCount (evs : List Event) : Nat :=
  (evs.filter (fun e =>
    match e with
    | Event.sleep _ => true
    | Event.fetchCall _ => false)).length

/-- Whether a fetch invocation counts as a success (a body came back). -/
def isSuccess (a : HttpAttempt) : Bool :=
  match fetch_srt_data a with
  | Except.ok (some _) => true
  | _ => false

/-- A batch summary as the spec describes it: counts of per-item
successes and failures.  Stated from the spec wording, to be compared
against what the code's loop actually retains. -/
structure Summary where
  succeeded : Nat
  failed : Nat
deriving DecidableEq, Repr

/-- The summary the spec asks for, computed directly from the per-item
outcomes (spec wording; the code has no counterpart). -/
def summarySpec (items : List (String × HttpAttempt)) : Summary :=
  { succeeded := (items.filter (fun p => isSuccess p.2)).length,
    failed := (items.filter (fun p => !isSuccess p.2)).length }

/-- What the code's loop retains when it finishes: only the variable
holding the most recent fetch result (api_response); there is no
running tally of successes or failures. -/
def mainLoopRetained (items : List (String × HttpAttempt)) : Option (Option String) :=
  match items.getLast? with
  | none => none
  | some (_, a) =>
      match fetch_srt_data a with
      | Except.ok r => some r
      | Except.error _ => none

/-- Python str.strip() of a field value: leading and trailing
whitespace characters removed. -/
def pyStrip (s : String) : String :=
  String.mk ((s.data.dropWhile Char.isWhitespace).rdropWhile Char.isWhitespace)

/-- The data-row loop of read_youtube_ids: an empty row is skipped
with a warning; otherwise the first field is stripped, an empty result
is skipped with a warning, and a non-empty result is appended to the
identifier list.  Returns the identifiers in order and the number of
skip warnings. -/
def processRows : List (List String) → List String × Nat
  | [] => ([], 0)
  | [] :: rest => ((processRows rest).1, (processRows rest).2 + 1)
  | (field :: _) :: rest =>
      if pyStrip field = "" then ((processRows rest).1, (processRows rest).2 + 1)
      else (pyStrip field :: (processRows rest).1, (processRows rest).2)

/-- How the attempt to read the input file goes: the file is missing
(FileNotFoundError); opening it or reading the header fails some other
way, before any data row is read; the file is read partway and a fault
strikes after some data rows were already handled; or the whole file
is read, its first row being the header row. -/
inductive FileOutcome where
  | missing
  | openFault
  | faultAfter (goodRows : List (List String))
  | ok (rows : List (List String))
deriving DecidableEq, Repr

/-- read_youtube_ids: the identifier list is accumulated inside the
try block, and both handlers fall through to returning it.  A missing
file or a fault before any data row leaves it empty; a mid-read fault
is logged but the identifiers gathered from the rows read so far are
returned; an empty or absent first row is a falsy header, so the
function warns and returns the empty list; otherwise the (non-empty)
header row is skipped and the data rows are processed. -/
def read_youtube_ids (f : FileOutcome) : List String :=
  match f with
  | FileOutcome.missing => []
  | FileOutcome.openFault => []
  | FileOutcome.faultAfter goodRows => (processRows goodRows).1
  | FileOutcome.ok [] => []
  | FileOutcome.ok ([] :: _) => []
  | FileOutcome.ok ((_ :: _) :: dataRows) => (processRows dataRows).1

/-- Pair each identifier with the outcome its network attempt will
have (the environment of a run). -/
def pairWithEnv (ids : List String) (env : Nat → HttpAttempt) :
    List (String × HttpAttempt) :=
  ids.enum.map (fun p => (p.2, env p.1))

/-- The whole script: read the identifiers; with none, log a warning
and finish; otherwise run the batch loop.  The first component is the
process exit status: the script never calls sys.exit, so it can only
be nonzero if an exception escaped to the top level. -/
def scriptRun (f : FileOutcome) (env : Nat → HttpAttempt) (delay : Nat) :
    Nat × List Event :=
  let ids := read_youtube_ids f
  if ids.isEmpty then (0, [])
  else
    match runBatch (pairWithEnv ids env) delay with
    | Except.ok evs => (0, evs)
    | Except.error _ => (1, [])

/-! Helper lemmas. -/

/-- Every branch of fetch_srt_data returns normally: the value is
fetchValue of the attempt, never an escaping exception. -/
theorem fetch_srt_data_ok (a : HttpAttempt) :
    fetch_srt_data a = Except.ok (fetchValue a) := by
  cases a with
  | resp s b =>
      simp only [fetch_srt_data, post, fetchValue]
      split <;> rfl
  | timeout => rfl
  | connError => rfl
  | otherReqError => rfl

/-- The loop body never receives an escaping exception, so the run
from any position produces the pure trace of the remaining ids. -/
theorem runBatchAux_ok (n delay : Nat) :
    ∀ (idx : Nat) (items : List (String × HttpAttempt)),
      runBatchAux n delay idx items =
        Except.ok (traceAux n delay idx (items.map Prod.fst)) := by
  intro idx items
  induction items generalizing idx with
  | nil => rfl
  | cons hd rest ih =>
      obtain ⟨id, a⟩ := hd
      simp [runBatchAux, fetch_srt_data_ok, ih, traceAux]

/-- A whole batch run produces the pure trace of its identifiers. -/
theorem runBatch_ok (items : List (String × HttpAttempt)) (delay : Nat) :
    runBatch items delay =
      Except.ok (traceAux items.length delay 0 (items.map Prod.fst)) :=
  runBatchAux_ok items.length delay 0 items

/-- The batch trace, explicitly. -/
theorem batchEvents_eq (items : List (String × HttpAttempt)) (delay : Nat) :
    batchEvents items delay = traceAux items.length delay 0 (items.map Prod.fst) := by
  simp [batchEvents, runBatch_ok]

/-- fetchedIds splits over appends. -/
theorem fetchedIds_append (l1 l2 : List Event) :
    fetchedIds (l1 ++ l2) = fetchedIds l1 ++ fetchedIds l2 := by
  simp [fetchedIds]

/-- A fetch event contributes its identifier. -/
theorem fetchedIds_cons_fetch (id : String) (l : List Event) :
    fetchedIds (Event.fetchCall id :: l) = id :: fetchedIds l := by
  simp [fetchedIds]

/-- Sleeps hold no identifiers. -/
theorem fetchedIds_sleepEvents (n delay idx : Nat) :
    fetchedIds (sleepEvents n delay idx) = [] := by
  unfold sleepEvents
  split <;> rfl

/-- The identifiers of a trace are exactly the input ids, in order. -/
theorem fetchedIds_traceAux (n delay : Nat) :
    ∀ (idx : Nat) (ids : List String),
      fetchedIds (traceAux n delay idx ids) = ids := by
  intro idx ids
  induction ids generalizing idx with
  | nil => rfl
  | cons id rest ih =>
      simp only [traceAux, fetchedIds_cons_fetch, fetchedIds_append,
        fetchedIds_sleepEvents, List.nil_append, ih]

/-- No fetch events in a sleep block. -/
theorem filter_isFetchEvent_sleepEvents (n delay idx : Nat) :
    (sleepEvents n delay idx).filter isFetchEvent = [] := by
  unfold sleepEvents
  split <;> rfl

/-- The fetch events of a trace are the fetch calls of the ids, in order. -/
theorem filter_isFetchEvent_traceAux (n delay : Nat) :
    ∀ (idx : Nat) (ids : List String),
      (traceAux n delay idx ids).filter isFetchEvent = ids.map Event.fetchCall := by
  intro idx ids
  induction ids generalizing idx with
  | nil => rfl
  | cons id rest ih =>
      simp only [traceAux, List.map_cons]
      rw [List.filter_cons_of_pos (by rfl), List.filter_append,
        filter_isFetchEvent_sleepEvents, List.nil_append, ih]

/-- sleepCount splits over appends. -/
theorem sleepCount_append (l1 l2 : List Event) :
    sleepCount (l1 ++ l2) = sleepCount l1 + sleepCount l2 := by
  simp [sleepCount, List.filter_append]

/-- A fetch event is not a sleep. -/
theorem sleepCount_cons_fetch (id : String) (l : List Event) :
    sleepCount (Event.fetchCall id :: l) = sleepCount l := by
  simp [sleepCount]

/-- The sleeps contributed after one item: one when the item is not
the last and the delay is positive, none otherwise. -/
theorem sleepCount_sleepEvents (n delay idx : Nat) :
    sleepCount (sleepEvents n delay idx) =
      if idx < n - 1 ∧ 0 < delay then 1 else 0 := by
  unfold sleepEvents
  split <;> simp_all [sleepCount]

/-- With a zero delay setting, a trace holds no sleeps. -/
theorem sleepCount_traceAux_zero (n : Nat) :
    ∀ (idx : Nat) (ids : List String), sleepCount (traceAux n 0 idx ids) = 0 := by
  intro idx ids
  induction ids generalizing idx with
  | nil => rfl
  | cons id rest ih =>
      simp only [traceAux, sleepCount_cons_fetch, sleepCount_append,
        sleepCount_sleepEvents, ih]
      simp

/-- With a positive delay, a trace whose last item sits at position
n - 1 holds one sleep per item except the last. -/
theorem sleepCount_traceAux_pos (delay : Nat) (hd : 0 < delay) :
    ∀ (ids : List String) (n idx : Nat), idx + ids.length = n →
      sleepCount (traceAux n delay idx ids) = ids.length - 1 := by
  intro ids
  induction ids with
  | nil => intro n idx _; rfl
  | cons id rest ih =>
      intro n idx hn
      simp only [traceAux, sleepCount_cons_fetch, sleepCount_append,
        sleepCount_sleepEvents]
      cases rest with
      | nil =>
          have hc : ¬(idx < n - 1 ∧ 0 < delay) := by
            intro hx
            have h1 : (id :: ([] : List String)).length = 1 := rfl
            omega
          rw [if_neg hc]
          rfl
      | cons id2 rest2 =>
          have h2 : (id :: id2 :: rest2).length = rest2.length + 2 := by
            simp
          have hc : idx < n - 1 ∧ 0 < delay := by
            refine ⟨by omega, hd⟩
          rw [if_pos hc]
          have ihr := ih n (idx + 1) (by
            have h3 : (id2 :: rest2).length = rest2.length + 1 := by simp
            omega)
          rw [ihr]
          have h3 : (id2 :: rest2).length = rest2.length + 1 := by simp
          omega

/-- The first element surviving dropWhile fails the predicate. -/
theorem head?_dropWhile_false {α : Type} (p : α → Bool) (l : List α) :
    ∀ a, (l.dropWhile p).head? = some a → p a = false := by
  intro a h
  have hm := List.head?_dropWhile_not p l
  rw [h] at hm
  exact hm

/-- dropWhile keeps the tail, so a non-empty result keeps the last
element. -/
theorem getLast?_dropWhile {α : Type} (p : α → Bool) (l : List α)
    (h : l.dropWhile p ≠ []) : (l.dropWhile p).getLast? = l.getLast? := by
  obtain ⟨t, ht⟩ := List.dropWhile_suffix p (l := l)
  conv_rhs => rw [← ht]
  rw [List.getLast?_append]
  cases hx : (l.dropWhile p).getLast? with
  | none => exact absurd (List.getLast?_eq_none_iff.mp hx) h
  | some c => rfl

/-- The last element surviving rdropWhile fails the predicate. -/
theorem getLast?_rdropWhile_false {α : Type} (p : α → Bool) (l : List α) :
    ∀ a, (l.rdropWhile p).getLast? = some a → p a = false := by
  intro a h
  have hne : l.rdropWhile p ≠ [] := by
    intro hnil
    rw [hnil] at h
    exact Option.noConfusion h
  have hl := List.rdropWhile_last_not (p := p) (l := l) hne
  have heq : (l.rdropWhile p).getLast? = some ((l.rdropWhile p).getLast hne) :=
    List.getLast?_eq_getLast _ hne
  rw [heq] at h
  have : (l.rdropWhile p).getLast hne = a := Option.some.inj h
  rw [this] at hl
  exact Bool.not_eq_true _ |>.mp hl

/-- rdropWhile keeps the front, so a non-empty result keeps the head. -/
theorem head?_rdropWhile {α : Type} (p : α → Bool) (l : List α)
    (h : l.rdropWhile p ≠ []) : (l.rdropWhile p).head? = l.head? := by
  unfold List.rdropWhile at h ⊢
  rw [List.head?_reverse, getLast?_dropWhile p l.reverse (by
    intro hnil
    rw [hnil] at h
    exact h rfl), List.getLast?_reverse]

/-- The head of a stripped string is not whitespace. -/
theorem pyStrip_head (s : String) :
    ∀ c, (pyStrip s).data.head? = some c → c.isWhitespace = false := by
  intro c h
  unfold pyStrip at h
  set A := s.data.dropWhile Char.isWhitespace with hA
  have hne : A.rdropWhile Char.isWhitespace ≠ [] := by
    intro hnil
    rw [hnil] at h
    exact Option.noConfusion h
  rw [head?_rdropWhile Char.isWhitespace A hne] at h
  exact head?_dropWhile_false Char.isWhitespace s.data c h

/-- The last character of a stripped string is not whitespace. -/
theorem pyStrip_last (s : String) :
    ∀ c, (pyStrip s).data.getLast? = some c → c.isWhitespace = false := by
  intro c h
  unfold pyStrip at h
  exact getLast?_rdropWhile_false Char.isWhitespace _ c h

/-- A string of whitespace strips to the empty string. -/
theorem pyStrip_all_whitespace (s : String)
    (h : ∀ c ∈ s.data, c.isWhitespace = true) : pyStrip s = "" := by
  unfold pyStrip
  have h1 : s.data.dropWhile Char.isWhitespace = [] :=
    List.dropWhile_eq_nil_iff.mpr h
  rw [h1]
  rfl

/-- Every identifier produced by the row loop is the stripped value of
some field, and is non-empty. -/
theorem mem_processRows :
    ∀ (rows : List (List String)) (id : String), id ∈ (processRows rows).1 →
      ∃ s, id = pyStrip s ∧ pyStrip s ≠ "" := by
  intro rows
  induction rows with
  | nil =>
      intro id h
      simp [processRows] at h
  | cons row rest ih =>
      intro id h
      cases row with
      | nil =>
          exact ih id h
      | cons field rowRest =>
          by_cases hf : pyStrip field = ""
          · rw [processRows, if_pos hf] at h
            exact ih id h
          · rw [processRows, if_neg hf] at h
            rcases List.mem_cons.mp h with h1 | h2
            · exact ⟨field, h1, hf⟩
            · exact ih id h2

/-- Every data row yields exactly one identifier or one skip warning. -/
theorem processRows_length :
    ∀ rows : List (List String),
      (processRows rows).1.length + (processRows rows).2 = rows.length := by
  intro rows
  induction rows with
  | nil => rfl
  | cons row rest ih =>
      cases row with
      | nil =>
          simp only [processRows, List.length_cons]
          omega
      | cons field rowRest =>
          by_cases hf : pyStrip field = ""
          · simp only [processRows, if_pos hf, List.length_cons]
            omega
          · simp only [processRows, if_neg hf, List.length_cons]
            omega

/-- Pairing identifiers with their attempt outcomes keeps the
identifiers. -/
theorem pairWithEnv_map_fst (ids : List String) (env : Nat → HttpAttempt) :
    (pairWithEnv ids env).map Prod.fst = ids := by
  have aux : ∀ (l : List String) (k : Nat),
      ((l.enumFrom k).map (fun p => (p.2, env p.1))).map Prod.fst = l := by
    intro l
    induction l with
    | nil => intro k; rfl
    | cons id rest ih =>
        intro k
        simp only [List.enumFrom, List.map_cons]
        rw [ih]
  exact aux ids 0

/-- Pairing keeps the length. -/
theorem pairWithEnv_length (ids : List String) (env : Nat → HttpAttempt) :
    (pairWithEnv ids env).length = ids.length := by
  have h := congrArg List.length (pairWithEnv_map_fst ids env)
  simpa using h

/-- The whole script, evaluated: exit status 0 either way, and the
batch trace of whatever identifiers the file reading produced. -/
theorem scriptRun_eq (f : FileOutcome) (env : Nat → HttpAttempt) (delay : Nat) :
    scriptRun f env delay =
      if (read_youtube_ids f).isEmpty then (0, [])
      else (0, traceAux (read_youtube_ids f).length delay 0 (read_youtube_ids f)) := by
  unfold scriptRun
  by_cases hi : (read_youtube_ids f).isEmpty
  · simp [hi]
  · simp only [hi, if_false, Bool.false_eq_true]
    rw [runBatch_ok, pairWithEnv_length, pairWithEnv_map_fst]

/-! Claims. -/

/-- C1: when an HTTP response with status code s is received, a status
in the 2xx range yields the raw response body unmodified, and any
other status yields no body (the Failure case). -/
theorem fetch_status_classification (s : Nat) (body : String) :
    (200 ≤ s ∧ s < 300 →
      fetch_srt_data (HttpAttempt.resp s body) = Except.ok (some body)) ∧
    (¬(200 ≤ s ∧ s < 300) →
      fetch_srt_data (HttpAttempt.resp s body) = Except.ok none) := by
  constructor
  · intro h
    rw [fetch_srt_data_ok]
    simp [fetchValue, h.1, h.2]
  · intro h
    rw [fetch_srt_data_ok]
    simp [fetchValue, h]

/-- Witness for C1: a 204 with empty body is a success carrying the
empty body, a 500 yields no body. -/
theorem fetch_status_classification_witness :
    fetch_srt_data (HttpAttempt.resp 204 "") = Except.ok (some "") ∧
    fetch_srt_data (HttpAttempt.resp 500 "err") = Except.ok none :=
  ⟨(fetch_status_classification 204 "").1 (by decide),
   (fetch_status_classification 500 "err").2 (by decide)⟩

/-- C2: each fetch invocation makes exactly one network attempt, every
exception kind the attempt can raise (timeout, connection failure, any
other transport fault) is caught inside the fetcher and converted to a
no-body result, and no exception reaches the batch loop: the loop runs
to completion, attempting every identifier once, in order, whatever
the outcomes are. -/
theorem fetch_exceptions_contained :
    fetch_srt_data HttpAttempt.timeout = Except.ok none ∧
    fetch_srt_data HttpAttempt.connError = Except.ok none ∧
    fetch_srt_data HttpAttempt.otherReqError = Except.ok none ∧
    ∀ (items : List (String × HttpAttempt)) (delay : Nat),
      ∃ evs, runBatch items delay = Except.ok evs ∧
        fetchedIds evs = items.map Prod.fst := by
  refine ⟨rfl, rfl, rfl, ?_⟩
  intro items delay
  exact ⟨_, runBatch_ok items delay, fetchedIds_traceAux _ _ _ _⟩

/-- Counterexample to C3: the fetch_only field of the payload is the
JSON string "false", not the JSON boolean false. -/
theorem payload_fetch_only_counterexample :
    (payload "abc123").lookup "fetch_only" = some (JsonVal.str "false") ∧
    JsonVal.str "false" ≠ JsonVal.bool false := by
  decide

/-- C3 as amended: the request is derived deterministically from the
identifier — fixed URL, fixed headers, and a JSON body mapping
youtube_id to the identifier and fetch_only to the JSON string
"false" (a string, not a boolean). -/
theorem request_fetch_only_string (id : String) :
    buildRequest id = { url := API_URL, hdrs := headers, body := payload id } ∧
    (payload id).lookup "youtube_id" = some (JsonVal.str id) ∧
    (payload id).lookup "fetch_only" = some (JsonVal.str "false") :=
  ⟨rfl, rfl, rfl⟩

/-- C4: a run over a non-empty list of n identifiers issues exactly n
fetch invocations, one per identifier occurrence, in input order. -/
theorem batch_fetch_order (items : List (String × HttpAttempt)) (delay : Nat)
    (_h : 0 < items.length) :
    ∃ evs, runBatch items delay = Except.ok evs ∧
      evs.filter isFetchEvent = items.map (fun p => Event.fetchCall p.1) := by
  refine ⟨_, runBatch_ok items delay, ?_⟩
  rw [filter_isFetchEvent_traceAux, List.map_map]
  rfl

/-- Witness for C4: a one-item batch issues exactly its one fetch. -/
theorem batch_fetch_order_witness :
    0 < ([("abc123", HttpAttempt.resp 200 "ok")] : List (String × HttpAttempt)).length ∧
    ∃ evs, runBatch [("abc123", HttpAttempt.resp 200 "ok")] 0 = Except.ok evs ∧
      evs.filter isFetchEvent =
        ([("abc123", HttpAttempt.resp 200 "ok")] : List (String × HttpAttempt)).map
          (fun p => Event.fetchCall p.1) :=
  ⟨by decide, batch_fetch_order [("abc123", HttpAttempt.resp 200 "ok")] 0 (by decide)⟩

/-- C5: with a positive delay setting a run over n identifiers sleeps
exactly n - 1 times (after every item but the last), and with a zero
delay setting it never sleeps. -/
theorem batch_delay_count (items : List (String × HttpAttempt)) (delay : Nat) :
    (0 < delay → sleepCount (batchEvents items delay) = items.length - 1) ∧
    sleepCount (batchEvents items 0) = 0 := by
  constructor
  · intro hd
    rw [batchEvents_eq]
    have h := sleepCount_traceAux_pos delay hd (items.map Prod.fst) items.length 0
      (by simp)
    simpa using h
  · rw [batchEvents_eq]
    exact sleepCount_traceAux_zero items.length 0 (items.map Prod.fst)

/-- Witness for C5: a two-item batch with delay 1 sleeps once, and
with delay 0 never. -/
theorem batch_delay_count_witness :
    (0 : Nat) < 1 ∧
    sleepCount (batchEvents [("a", HttpAttempt.resp 200 ""), ("b", HttpAttempt.timeout)] 1) =
      ([("a", HttpAttempt.resp 200 ""), ("b", HttpAttempt.timeout)] :
        List (String × HttpAttempt)).length - 1 ∧
    sleepCount (batchEvents [("a", HttpAttempt.resp 200 ""), ("b", HttpAttempt.timeout)] 0) = 0 :=
  ⟨by decide,
   (batch_delay_count [("a", HttpAttempt.resp 200 ""), ("b", HttpAttempt.timeout)] 1).1
     (by decide),
   (batch_delay_count [("a", HttpAttempt.resp 200 ""), ("b", HttpAttempt.timeout)] 0).2⟩

/-- C6: a response body longer than 150 characters is logged as
exactly its first 150 characters followed by the ellipsis marker; a
body of at most 150 characters is logged unmodified. -/
theorem response_snippet_spec (body : String) :
    (150 < body.length →
      response_snippet body = pyTake body 150 ++ "..." ∧
      (pyTake body 150).length = 150) ∧
    (body.length ≤ 150 → response_snippet body = body) := by
  constructor
  · intro h
    constructor
    · unfold response_snippet
      rw [if_pos (by omega)]
    · have h1 : (pyTake body 150).length = (body.data.take 150).length := rfl
      have h2 : body.length = body.data.length := rfl
      rw [h1, List.length_take]
      omega
  · intro h
    unfold response_snippet
    rw [if_neg (by omega)]

set_option maxRecDepth 4096 in
/-- Witness for C6: a 151-character body is truncated, a short one is
unchanged. -/
theorem response_snippet_spec_witness :
    (response_snippet (String.mk (List.replicate 151 'a')) =
        pyTake (String.mk (List.replicate 151 'a')) 150 ++ "..." ∧
      (pyTake (String.mk (List.replicate 151 'a')) 150).length = 150) ∧
    response_snippet "short" = "short" :=
  ⟨(response_snippet_spec (String.mk (List.replicate 151 'a'))).1 (by decide),
   (response_snippet_spec "short").2 (by decide)⟩

/-- C7: every data row contributes exactly one identifier or exactly
one skip warning (so skipped rows do not count toward n), and the
rows abc123 / empty-field / empty-row yield one identifier and two
warnings. -/
theorem rows_skip_accounting :
    (∀ rows : List (List String),
      (processRows rows).1.length + (processRows rows).2 = rows.length) ∧
    processRows [["abc123"], [""], []] = (["abc123"], 2) :=
  ⟨processRows_length, by decide⟩

/-- Counterexample to C8: two runs whose per-item outcomes differ in
their success and failure counts are indistinguishable to the code's
loop — the trace of attempts and sleeps and the one variable the loop
retains are identical — so the loop returns no aggregate of the
outcomes. -/
theorem batch_no_summary_counterexample :
    summarySpec [("a", HttpAttempt.resp 200 "x"), ("b", HttpAttempt.resp 200 "x")] ≠
      summarySpec [("a", HttpAttempt.resp 500 "x"), ("b", HttpAttempt.resp 200 "x")] ∧
    batchEvents [("a", HttpAttempt.resp 200 "x"), ("b", HttpAttempt.resp 200 "x")] 1 =
      batchEvents [("a", HttpAttempt.resp 500 "x"), ("b", HttpAttempt.resp 200 "x")] 1 ∧
    mainLoopRetained [("a", HttpAttempt.resp 200 "x"), ("b", HttpAttempt.resp 200 "x")] =
      mainLoopRetained [("a", HttpAttempt.resp 500 "x"), ("b", HttpAttempt.resp 200 "x")] := by
  decide

/-- C8 as amended: the batch loop aggregates no per-item outcome
counts and returns no summary: its run is fully determined by the
identifier list alone, independent of each item's success or
failure. -/
theorem batch_trace_ignores_outcomes (items1 items2 : List (String × HttpAttempt))
    (delay : Nat) (h : items1.map Prod.fst = items2.map Prod.fst) :
    batchEvents items1 delay = batchEvents items2 delay := by
  have hl : items1.length = items2.length := by
    have hc := congrArg List.length h
    simpa using hc
  rw [batchEvents_eq, batchEvents_eq, hl, h]

/-- Witness for C8 as amended: same identifier, different outcomes,
same run. -/
theorem batch_trace_ignores_outcomes_witness :
    batchEvents [("a", HttpAttempt.resp 200 "x")] 1 =
      batchEvents [("a", HttpAttempt.timeout)] 1 :=
  batch_trace_ignores_outcomes [("a", HttpAttempt.resp 200 "x")]
    [("a", HttpAttempt.timeout)] 1 (by decide)

/-- Counterexample to C9: with the input file missing, the script
processes nothing but still finishes with exit status 0, not a
non-zero status. -/
theorem script_missing_file_exit_counterexample :
    scriptRun FileOutcome.missing (fun _ => HttpAttempt.timeout) 1 = (0, []) := rfl

/-- C9 as amended: a missing input file, or a fault at open or while
reading the header, leaves the identifier list empty after the logged
error, so no identifiers are processed; an empty first row is a falsy
header and likewise ends the run with no identifiers; but a fault
striking mid-read is caught with the identifiers already gathered
kept, and those are processed (here the one id read before the
fault is fetched); and the process exit status is 0 in every case,
the missing-file case included: the script makes no exit-code
distinction. -/
theorem script_exit_always_zero (f : FileOutcome) (env : Nat → HttpAttempt)
    (delay : Nat) :
    (scriptRun f env delay).1 = 0 ∧
    scriptRun FileOutcome.missing env delay = (0, []) ∧
    scriptRun FileOutcome.openFault env delay = (0, []) ∧
    scriptRun (FileOutcome.ok [[]]) env delay = (0, []) ∧
    scriptRun (FileOutcome.faultAfter [["abc"]]) env delay =
      (0, [Event.fetchCall "abc"]) := by
  refine ⟨?_, rfl, rfl, rfl, ?_⟩
  · rw [scriptRun_eq]
    split <;> rfl
  · rw [scriptRun_eq]
    rfl

/-- C10: every identifier the row loop keeps is a stripped field
value: non-empty, with no leading and no trailing whitespace; and a
field of nothing but whitespace strips to empty and is skipped with a
warning. -/
theorem ids_stripped (rows : List (List String)) (id : String)
    (h : id ∈ (processRows rows).1) :
    id ≠ "" ∧
    (∀ c, id.data.head? = some c → c.isWhitespace = false) ∧
    (∀ c, id.data.getLast? = some c → c.isWhitespace = false) ∧
    (∀ s : String, (∀ c ∈ s.data, c.isWhitespace = true) →
      processRows [[s]] = ([], 1)) := by
  obtain ⟨s, rfl, hne⟩ := mem_processRows rows id h
  refine ⟨hne, pyStrip_head s, pyStrip_last s, ?_⟩
  intro t ht
  rw [processRows, if_pos (pyStrip_all_whitespace t ht)]
  rfl

/-- Witness for C10: the field with surrounding blanks yields the bare
identifier. -/
theorem ids_stripped_witness :
    ("abc" : String) ≠ "" ∧
    (∀ c, ("abc" : String).data.head? = some c → c.isWhitespace = false) ∧
    (∀ c, ("abc" : String).data.getLast? = some c → c.isWhitespace = false) ∧
    (∀ s : String, (∀ c ∈ s.data, c.isWhitespace = true) →
      processRows [[s]] = ([], 1)) :=
  ids_stripped [["  abc\t"]] "abc" (by decide)

end SrtFetcher
